import Mathlib

/-!
Verification of the Context Assembly Engine (RAG pipeline) of the tax-engagement
assistant backend.

The Python sources embedded here are:
  * `backend/app/utils/text_utils.py` — chunker, action parser, relevance scorer;
  * `backend/app/services/rag_service.py` — retrieval, snippet assembly, prompt
    composition;
  * `backend/app/utils/document_parser.py` — extraction (modelled through its
    observable outcome, an `Except` value per document).

Texts are modelled as `List Char` (Python `str`); Python's integer arithmetic on
non-negative quantities is `Nat` (Python `//` is `Nat` division).  All
definitions are structural recursions (loops use an explicit fuel argument equal
to the obvious bound of the Python `while`), so every definition evaluates by
kernel reduction.
-/

/-- Python strings are modelled as lists of characters. -/
abbrev Str := List Char

/-- Coerce a Lean string literal to the model type. -/
def s2l (s : String) : Str := s.data

/-- `sub` is a prefix of `hay` (character-wise). -/
def leadsWith : Str → Str → Bool
  | [], _ => true
  | _ :: _, [] => false
  | a :: as, b :: bs => a == b && leadsWith as bs

/-- `sub` occurs in `hay` starting at index `i` (Python `hay[i:i+len(sub)] == sub`). -/
def matchAt (hay sub : Str) (i : Nat) : Bool :=
  leadsWith sub (hay.drop i)

/-- Python `sub in hay`: substring containment. -/
def containsSub (hay sub : Str) : Bool :=
  (List.range (hay.length + 1)).any (fun i => matchAt hay sub i)

/-- Python slice `text[s:e]` for `0 ≤ s ≤ e` (out-of-range indices clamp). -/
def pySlice (text : Str) (s e : Nat) : Str :=
  (text.drop s).take (e - s)

/-- ASCII lower-casing of one character, as Python `str.lower` acts on the
ASCII inputs occurring in this code base. -/
def pyLowerChar (c : Char) : Char := c.toLower

/-- Python `str.lower()` (ASCII fragment). -/
def pyLower (s : Str) : Str := s.map pyLowerChar

/-- Case-insensitive prefix test (used to model `re.IGNORECASE` literal matching). -/
def leadsWithCI (sub hay : Str) : Bool :=
  leadsWith (pyLower sub) (pyLower hay)

/-- Characters Python treats as whitespace in `str.split`, `str.strip` and `\s`. -/
def pySpace (c : Char) : Bool :=
  c == ' ' || c == '\t' || c == '\n' || c == '\r' || c == Char.ofNat 11 || c == Char.ofNat 12

/-- Python `str.split()` with no argument: split on runs of whitespace,
discarding empty pieces. -/
def pySplitWs (s : Str) : List Str :=
  (List.splitOnP pySpace s).filter (fun p => p ≠ [])

/-- Python `str.strip()`: remove leading and trailing whitespace. -/
def pyStrip (s : Str) : Str :=
  ((s.dropWhile pySpace).reverse.dropWhile pySpace).reverse

/-- Counting loop behind `pyCount`; fuel bounds the scan position.  In the
match branch the scan jumps over the whole occurrence, exactly like Python's
non-overlapping left-to-right `str.count`. -/
def pyCountAux (sub : Str) : Nat → Str → Nat
  | 0, _ => 0
  | _, [] => 0
  | fuel + 1, c :: rest =>
    if leadsWith sub (c :: rest) then 1 + pyCountAux sub fuel ((c :: rest).drop sub.length)
    else pyCountAux sub fuel rest

/-- Python `hay.count(sub)`: number of non-overlapping occurrences, scanning
left to right (`"".count("") == 1`, `"ab".count("") == 3`). -/
def pyCount (hay sub : Str) : Nat :=
  if sub = [] then hay.length + 1 else pyCountAux sub hay.length hay

/-- Python `text.rfind(sub, s, e)` for nonempty `sub`: the greatest index
`i ≥ s` with `i + len(sub) ≤ e` at which `sub` occurs, if any (`None` models
Python's `-1`). -/
def pyRfind (text sub : Str) (s e : Nat) : Option Nat :=
  (List.range e).reverse.find?
    (fun i => decide (s ≤ i) && decide (i + sub.length ≤ e) && matchAt text sub i)

/-- Python `hay.find(sub)`: least index at which `sub` occurs, `-1` when absent. -/
def pyFind (hay sub : Str) : Int :=
  match (List.range (hay.length + 1)).find? (fun i => matchAt hay sub i) with
  | some i => Int.ofNat i
  | none => -1

/-- A word character in the sense of the regex `\w` (ASCII fragment, matching
the alphanumeric inputs this code base feeds the regexes). -/
def isWordChar (c : Char) : Bool := c.isAlpha || c.isDigit || c == '_'

/-- Maximal runs of word characters of a text, in order. -/
def wordRuns (s : Str) : List Str :=
  (List.splitOnP (fun c => !isWordChar c) s).filter (fun p => p ≠ [])

/-- `re.findall(r"\b[a-zA-Z]{2,}\b", s)`: a boundary-delimited alphabetic token
is exactly a maximal word-character run that is all-alphabetic and of length at
least 2 (an alphabetic sub-run flanked by a digit or underscore has no `\b`). -/
def alphaTokens (s : Str) : List Str :=
  (wordRuns s).filter (fun r => r.all Char.isAlpha && 2 ≤ r.length)

/-- Stable descending sort by a numeric key: models Python
`sorted(l, key=score, reverse=True)` (Python's sort is stable, so ties keep
encounter order; `orderedInsert` with this relation inserts each element before
the strictly smaller ones and after earlier ties). -/
def sortDescBy {α : Type} (score : α → Nat) (l : List α) : List α :=
  List.insertionSort (fun a b => score b ≤ score a) l

/-- Stable ascending sort by an integer key: models Python
`sorted(l, key=k)` / `l.sort(key=k)`. -/
def sortAscBy {α : Type} (key : α → Int) (l : List α) : List α :=
  List.insertionSort (fun a b => key a ≤ key b) l

/-- Python `sep.flatten(parts)`. -/
def pyJoin (sep : Str) (parts : List Str) : Str := List.intercalate sep parts

/-! ## Chunker: `text_utils.split_into_chunks` -/

/-- One break-point probe of `split_into_chunks`: Python
`b = text.rfind(sub, start, e0); if b != -1 and b > start + chunk_size // 2: end = b + add`. -/
def breakCandidate (text : Str) (chunk_size start e0 : Nat) (sub : Str) (add : Nat) :
    Option Nat :=
  match pyRfind text sub start e0 with
  | some b => if start + chunk_size / 2 < b then some (b + add) else none
  | none => none

/-- The adjusted end position of the window starting at `start`
(`text_utils.py` lines 178–196): hard cut at `start + chunk_size` capped at the
text length; if not at the end of the text, prefer a paragraph break, then a
sentence break, then a space, each only past the window midpoint. -/
def chunkEnd (text : Str) (chunk_size start : Nat) : Nat :=
  let e0 := min (start + chunk_size) text.length
  if e0 < text.length then
    ((breakCandidate text chunk_size start e0 (s2l "\n\n") 2).orElse fun _ =>
      (breakCandidate text chunk_size start e0 (s2l ". ") 2).orElse fun _ =>
        breakCandidate text chunk_size start e0 (s2l " ") 1).getD e0
  else e0

/-- The `while start < len(text)` loop of `split_into_chunks`, with fuel.
Each iteration emits `text[start:end]` and moves to
`max(start + 1, end - overlap)`. -/
def chunksLoop (text : Str) (chunk_size overlap : Nat) : Nat → Nat → List Str
  | 0, _ => []
  | fuel + 1, start =>
    if start < text.length then
      let e := chunkEnd text chunk_size start
      pySlice text start e :: chunksLoop text chunk_size overlap fuel (max (start + 1) (e - overlap))
    else []

/-- `text_utils.split_into_chunks(text, chunk_size, overlap)`.  The fuel
`text.length` suffices because the start position strictly increases
(`chunksLoop_congr` below proves the result is fuel-independent from there on). -/
def split_into_chunks (text : Str) (chunk_size overlap : Nat) : List Str :=
  if text = [] then []
  else if text.length ≤ chunk_size then [text]
  else chunksLoop text chunk_size overlap text.length 0

/-- The loop result is the same for any two fuels that dominate the remaining
distance `text.length - start`: the computation has stabilised, i.e. the
Python `while` loop terminates. -/
theorem chunksLoop_congr (text : Str) (chunk_size overlap : Nat) :
    ∀ f₁ f₂ start, text.length - start ≤ f₁ → text.length - start ≤ f₂ →
      chunksLoop text chunk_size overlap f₁ start = chunksLoop text chunk_size overlap f₂ start := by
  intro f₁
  induction f₁ with
  | zero =>
    intro f₂ start h₁ h₂
    have hge : ¬ start < text.length := by omega
    cases f₂ with
    | zero => rfl
    | succ g => simp [chunksLoop, hge]
  | succ f ih =>
    intro f₂ start h₁ h₂
    by_cases hlt : start < text.length
    · cases f₂ with
      | zero => omega
      | succ g =>
        simp only [chunksLoop, hlt, if_pos]
        have hnext : start + 1 ≤ max (start + 1) (chunkEnd text chunk_size start - overlap) :=
          le_max_left _ _
        have := ih g (max (start + 1) (chunkEnd text chunk_size start - overlap))
          (by omega) (by omega)
        rw [this]
    · cases f₂ with
      | zero => simp [chunksLoop, hlt]
      | succ g => simp [chunksLoop, hlt]

/-- The loop emits at most one chunk per unit of fuel. -/
theorem chunksLoop_length_le (text : Str) (chunk_size overlap : Nat) :
    ∀ fuel start, (chunksLoop text chunk_size overlap fuel start).length ≤ fuel := by
  intro fuel
  induction fuel with
  | zero => intro start; simp [chunksLoop]
  | succ f ih =>
    intro start
    by_cases hlt : start < text.length
    · simp only [chunksLoop, hlt, if_pos, List.length_cons]
      exact Nat.succ_le_succ (ih _)
    · simp [chunksLoop, hlt]

/-- C4 counterexample: the empty text satisfies `len(t) <= size` but
`split_into_chunks` returns `[]`, not the one-element list `[t]` the claim
demands for every such text. -/
theorem c4_empty_text_counterexample :
    ¬ (split_into_chunks (s2l "") 1000 100 = [s2l ""]) := by decide

/-- C4 (amended): for every NON-EMPTY text `t` with `len(t) <= size`, the
chunker returns exactly `[t]`, for every overlap. -/
theorem c4_single_chunk (t : Str) (size overlap : Nat)
    (hne : t ≠ []) (hle : t.length ≤ size) :
    split_into_chunks t size overlap = [t] := by
  simp [split_into_chunks, hne, hle]

/-- Witness for C4 (amended) at a concrete input. -/
theorem c4_single_chunk_witness :
    (s2l "hello" ≠ [] ∧ (s2l "hello").length ≤ 1000) ∧
      split_into_chunks (s2l "hello") 1000 100 = [s2l "hello"] :=
  ⟨⟨by decide, by decide⟩, c4_single_chunk (s2l "hello") 1000 100 (by decide) (by decide)⟩

/-- C5: the chunker terminates on every input.  For every text, positive chunk
size and every overlap (including `overlap ≥ size`): (a) the next window start
`max(previousStart + 1, end - overlap)` strictly exceeds the previous start;
(b) the fuel-indexed loop has stabilised at fuel `text.length`, i.e. any larger
fuel gives the same (finite) chunk list — this is exactly termination of the
Python `while`; and (c) the returned list is finite with at most `len(text)`
elements. -/
theorem c5_chunker_terminates (t : Str) (size overlap : Nat) (hsize : 0 < size) :
    (∀ start, start < t.length →
        start < max (start + 1) (chunkEnd t size start - overlap)) ∧
    (∀ f₁ f₂, t.length ≤ f₁ → t.length ≤ f₂ →
        chunksLoop t size overlap f₁ 0 = chunksLoop t size overlap f₂ 0) ∧
    (split_into_chunks t size overlap).length ≤ t.length := by
  refine ⟨?_, ?_, ?_⟩
  · intro start _
    have := le_max_left (start + 1) (chunkEnd t size start - overlap)
    omega
  · intro f₁ f₂ h₁ h₂
    exact chunksLoop_congr t size overlap f₁ f₂ 0 (by omega) (by omega)
  · by_cases hnil : t = []
    · simp [split_into_chunks, hnil]
    · by_cases hle : t.length ≤ size
      · have : 0 < t.length := List.length_pos.mpr hnil
        simp [split_into_chunks, hnil, hle]
        omega
      · simp only [split_into_chunks, hnil, hle, if_neg, if_false]
        exact chunksLoop_length_le t size overlap t.length 0

/-- Witness for C5 at a concrete input (`overlap ≥ size` included). -/
theorem c5_chunker_terminates_witness :
    0 < 2 ∧ (split_into_chunks (s2l "hello world") 2 5).length ≤ (s2l "hello world").length :=
  ⟨by decide, (c5_chunker_terminates (s2l "hello world") 2 5 (by decide)).2.2⟩

/-! ## Action parser: `text_utils.extract_actions_from_response` -/

/-- A parsed suggested-action record (`params` is always the empty dict and is
omitted). -/
structure ActionRec where
  action_id : String
  action_name : Str
  description : Str
deriving DecidableEq

/-- The keyword classification shared verbatim by both extraction patterns
(`text_utils.py` lines 62–71 and 88–97): substring tests on the lower-cased
matched text, first test that fires wins. -/
def classifyAction (s : Str) : Option String :=
  if containsSub (pyLower s) (s2l "missing") &&
      (containsSub (pyLower s) (s2l "info") || containsSub (pyLower s) (s2l "letter")) then
    some "generate_missing_info"
  else if containsSub (pyLower s) (s2l "risk") && containsSub (pyLower s) (s2l "review") then
    some "trigger_risk_review"
  else if containsSub (pyLower s) (s2l "summary") then
    some "generate_client_summary"
  else if containsSub (pyLower s) (s2l "tax review") then
    some "send_to_tax_review"
  else none

/-- The alternatives of the leading group of the recommendation pattern, in
regex order. -/
def recommendLeads : List Str :=
  [s2l "I recommend", s2l "You could", s2l "Consider", s2l "You may want to", s2l "I suggest"]

/-- The verb alternatives of the recommendation pattern, in regex order. -/
def recommendVerbs : List Str :=
  [s2l "generating", s2l "creating", s2l "sending", s2l "triggering"]

/-- The article alternatives of the recommendation pattern, in regex order. -/
def recommendArticles : List Str := [s2l "a", s2l "the"]

/-- Tail of the recommendation pattern after `(?:a|the) `: the lazy group
`(.*?)` followed by `(?:\.|\n)`.  `.` does not cross a newline, so the group
runs to the first `.` or newline after `gs`; with no terminator the alternative
fails.  Returns `(groupStart, groupEnd, matchEnd)`. -/
def p1TryTail (resp : Str) (gs : Nat) : Option (Nat × Nat × Nat) :=
  match (resp.drop gs).findIdx? (fun c => c == '.' || c == '\n') with
  | some k => some (gs, gs + k, gs + k + 1)
  | none => none

/-- Article alternation of the recommendation pattern (each article is followed
by a literal space), tried in regex order with backtracking. -/
def p1TryArticle (resp : Str) (p : Nat) : Option (Nat × Nat × Nat) :=
  recommendArticles.findSome? (fun art =>
    if leadsWithCI art (resp.drop p) && leadsWith (s2l " ") (resp.drop (p + art.length)) then
      p1TryTail resp (p + art.length + 1)
    else none)

/-- Verb alternation of the recommendation pattern. -/
def p1TryVerb (resp : Str) (p : Nat) : Option (Nat × Nat × Nat) :=
  recommendVerbs.findSome? (fun v =>
    if leadsWithCI v (resp.drop p) && leadsWith (s2l " ") (resp.drop (p + v.length)) then
      p1TryArticle resp (p + v.length + 1)
    else none)

/-- Attempt of the full recommendation regex
`(?:I recommend|You could|Consider|You may want to|I suggest) (generating|creating|sending|triggering) (?:a|the) (.*?)(?:\.|\n)`
(compiled with `re.IGNORECASE`) at position `i`, with Python's ordered
alternation and backtracking. -/
def p1MatchAt (resp : Str) (i : Nat) : Option (Nat × Nat × Nat) :=
  recommendLeads.findSome? (fun pre =>
    if leadsWithCI pre (resp.drop i) && leadsWith (s2l " ") (resp.drop (i + pre.length)) then
      p1TryVerb resp (i + pre.length + 1)
    else none)

/-- `re.finditer` scan of pattern 1: leftmost matches, non-overlapping,
resuming after each match end; fuel bounds the scan position.  A match emits a
record when the classification fires (`if action_id:`), with
`action_name = group(2).strip()` and the description built from `group(0)`. -/
def p1Scan (resp : Str) : Nat → Nat → List ActionRec
  | 0, _ => []
  | fuel + 1, i =>
    if i < resp.length then
      match p1MatchAt resp i with
      | some (gs, ge, me) =>
        match classifyAction (pyStrip (pySlice resp gs ge)) with
        | some id =>
          { action_id := id, action_name := pyStrip (pySlice resp gs ge),
            description := s2l "AI suggested: " ++ pySlice resp i me } :: p1Scan resp fuel me
        | none => p1Scan resp fuel me
      | none => p1Scan resp fuel (i + 1)
    else []

/-- Attempt of the structured pattern `Action:\s*(.*?)(?:\n|$)` (no IGNORECASE)
at position `i`: the literal `Action:`, greedy whitespace, then the lazy group
up to the first newline or the end of the string; the match consumes the
terminating newline when present. -/
def p2MatchAt (resp : Str) (i : Nat) : Option (Nat × Nat × Nat) :=
  if leadsWith (s2l "Action:") (resp.drop i) then
    let ws := ((resp.drop (i + 7)).takeWhile pySpace).length
    let gs := i + 7 + ws
    let glen := ((resp.drop gs).takeWhile (fun c => c != '\n')).length
    let ge := gs + glen
    let me := if ge < resp.length then ge + 1 else ge
    some (gs, ge, me)
  else none

/-- `re.finditer` scan of pattern 2; a match emits a record when the
classification fires, with `action_name` and the description both built from
`group(1).strip()`. -/
def p2Scan (resp : Str) : Nat → Nat → List ActionRec
  | 0, _ => []
  | fuel + 1, i =>
    if i < resp.length then
      match p2MatchAt resp i with
      | some (gs, ge, me) =>
        match classifyAction (pyStrip (pySlice resp gs ge)) with
        | some id =>
          { action_id := id, action_name := pyStrip (pySlice resp gs ge),
            description := s2l "AI suggested: " ++ pyStrip (pySlice resp gs ge) } ::
            p2Scan resp fuel me
        | none => p2Scan resp fuel me
      | none => p2Scan resp fuel (i + 1)
    else []

/-- All candidate actions in pattern order: every pattern-1 match, then every
pattern-2 match. -/
def rawActions (resp : Str) : List ActionRec :=
  p1Scan resp (resp.length + 1) 0 ++ p2Scan resp (resp.length + 1) 0

/-- The de-duplication loop of `extract_actions_from_response` (lines 107–114):
keep an action only when its `action_id` has not been seen yet. -/
def dedupActions (seen : List String) : List ActionRec → List ActionRec
  | [] => []
  | a :: rest =>
    if a.action_id ∈ seen then dedupActions seen rest
    else a :: dedupActions (a.action_id :: seen) rest

/-- `text_utils.extract_actions_from_response(response)`. -/
def extract_actions_from_response (resp : Str) : List ActionRec :=
  dedupActions [] (rawActions resp)

/-- The four recognised action identifiers. -/
def fixedActionIds : List String :=
  ["generate_missing_info", "trigger_risk_review", "generate_client_summary", "send_to_tax_review"]

/-- The classification only ever produces one of the four fixed identifiers. -/
theorem classifyAction_mem_fixed (s : Str) (id : String)
    (h : classifyAction s = some id) : id ∈ fixedActionIds := by
  unfold classifyAction at h
  split_ifs at h <;> simp_all [fixedActionIds]

/-- Every record emitted by the pattern-1 scan carries a fixed identifier. -/
theorem p1Scan_ids (resp : Str) : ∀ fuel i x, x ∈ p1Scan resp fuel i →
    x.action_id ∈ fixedActionIds := by
  intro fuel
  induction fuel with
  | zero => intro i x hx; simp [p1Scan] at hx
  | succ f ih =>
    intro i x hx
    rw [p1Scan] at hx
    split at hx
    · split at hx
      · split at hx
        · rcases List.mem_cons.mp hx with hx | hx
          · subst hx; exact classifyAction_mem_fixed _ _ (by assumption)
          · exact ih _ x hx
        · exact ih _ x hx
      · exact ih _ x hx
    · simp at hx

/-- Every record emitted by the pattern-2 scan carries a fixed identifier. -/
theorem p2Scan_ids (resp : Str) : ∀ fuel i x, x ∈ p2Scan resp fuel i →
    x.action_id ∈ fixedActionIds := by
  intro fuel
  induction fuel with
  | zero => intro i x hx; simp [p2Scan] at hx
  | succ f ih =>
    intro i x hx
    rw [p2Scan] at hx
    split at hx
    · split at hx
      · split at hx
        · rcases List.mem_cons.mp hx with hx | hx
          · subst hx; exact classifyAction_mem_fixed _ _ (by assumption)
          · exact ih _ x hx
        · exact ih _ x hx
      · exact ih _ x hx
    · simp at hx

/-- Every record kept by the de-duplication loop has an unseen identifier and
is the first record of the input carrying that identifier. -/
theorem dedupActions_spec (l : List ActionRec) : ∀ (seen : List String) (x : ActionRec),
    x ∈ dedupActions seen l →
    x.action_id ∉ seen ∧
      ∃ l₁ l₂, l = l₁ ++ x :: l₂ ∧ ∀ b ∈ l₁, b.action_id ≠ x.action_id := by
  induction l with
  | nil => intro seen x hx; simp [dedupActions] at hx
  | cons a rest ih =>
    intro seen x hx
    by_cases hmem : a.action_id ∈ seen
    · rw [dedupActions, if_pos hmem] at hx
      obtain ⟨hns, l₁, l₂, heq, hne⟩ := ih seen x hx
      refine ⟨hns, a :: l₁, l₂, by rw [heq]; rfl, ?_⟩
      intro b hb
      rcases List.mem_cons.mp hb with hb | hb
      · subst hb; intro hcontra; exact hns (hcontra ▸ hmem)
      · exact hne b hb
    · rw [dedupActions, if_neg hmem] at hx
      rcases List.mem_cons.mp hx with hx | hx
      · subst hx; exact ⟨hmem, [], rest, rfl, by simp⟩
      · obtain ⟨hns, l₁, l₂, heq, hne⟩ := ih (a.action_id :: seen) x hx
        have hxa : x.action_id ≠ a.action_id := fun h => hns (by simp [h])
        have hxs : x.action_id ∉ seen := fun h => hns (by simp [h])
        refine ⟨hxs, a :: l₁, l₂, by rw [heq]; rfl, ?_⟩
        intro b hb
        rcases List.mem_cons.mp hb with hb | hb
        · subst hb; exact fun h => hxa h.symm
        · exact hne b hb

/-- The identifiers surviving de-duplication are pairwise distinct. -/
theorem dedupActions_nodup (l : List ActionRec) : ∀ seen : List String,
    ((dedupActions seen l).map ActionRec.action_id).Nodup := by
  induction l with
  | nil => intro seen; simp [dedupActions]
  | cons a rest ih =>
    intro seen
    by_cases hmem : a.action_id ∈ seen
    · rw [dedupActions, if_pos hmem]; exact ih seen
    · rw [dedupActions, if_neg hmem]
      simp only [List.map_cons, List.nodup_cons]
      constructor
      · intro hcontra
        obtain ⟨x, hx, hid⟩ := List.mem_map.mp hcontra
        exact (dedupActions_spec rest (a.action_id :: seen) x hx).1 (by simp [hid])
      · exact ih (a.action_id :: seen)

/-- C6: the action parser maps the two reference inputs as specified —
`"Action: Generate Missing Information Letter\n"` yields exactly one action,
identified `generate_missing_info`, and
`"I recommend triggering a risk review."` yields exactly one action,
identified `trigger_risk_review`. -/
theorem c6_reference_inputs :
    (extract_actions_from_response
        (s2l "Action: Generate Missing Information Letter\n")).map ActionRec.action_id
      = ["generate_missing_info"] ∧
    (extract_actions_from_response
        (s2l "I recommend triggering a risk review.")).map ActionRec.action_id
      = ["trigger_risk_review"] := by
  constructor <;> decide

/-- C7: for every response text, the parsed actions carry pairwise-distinct
identifiers, each drawn from the fixed four-element set, and each kept record
is the first record with its identifier among the candidates produced by
pattern 1 followed by pattern 2 (first occurrence in pattern order wins). -/
theorem c7_distinct_fixed_first_wins (resp : Str) :
    ((extract_actions_from_response resp).map ActionRec.action_id).Nodup ∧
    (∀ x ∈ extract_actions_from_response resp, x.action_id ∈ fixedActionIds) ∧
    (∀ x ∈ extract_actions_from_response resp,
        ∃ l₁ l₂, rawActions resp = l₁ ++ x :: l₂ ∧
          ∀ b ∈ l₁, b.action_id ≠ x.action_id) := by
  refine ⟨dedupActions_nodup _ [], ?_, ?_⟩
  · intro x hx
    obtain ⟨-, l₁, l₂, heq, -⟩ := dedupActions_spec (rawActions resp) [] x hx
    have hxraw : x ∈ rawActions resp := by
      rw [heq]; exact List.mem_append_right _ (List.mem_cons_self _ _)
    rcases List.mem_append.mp hxraw with h | h
    · exact p1Scan_ids resp _ _ x h
    · exact p2Scan_ids resp _ _ x h
  · intro x hx
    obtain ⟨-, l₁, l₂, heq, hne⟩ := dedupActions_spec (rawActions resp) [] x hx
    exact ⟨l₁, l₂, heq, hne⟩

/-- Witness for C7 at a concrete response exercising both patterns. -/
theorem c7_distinct_fixed_first_wins_witness :
    ((extract_actions_from_response
        (s2l "I recommend triggering a risk review.\nAction: Trigger Risk Review\n")).map
          ActionRec.action_id).Nodup :=
  (c7_distinct_fixed_first_wins
    (s2l "I recommend triggering a risk review.\nAction: Trigger Risk Review\n")).1

/-! ## Query expansion and chunk scoring: `rag_service.search_documents`,
`rag_service._expand_query_with_tax_terms` -/

/-- The fixed tax-term synonym table of `_expand_query_with_tax_terms`, in
insertion (iteration) order. -/
def tax_term_map : List (Str × List Str) :=
  [ (s2l "missing", [s2l "incomplete", s2l "needed", s2l "required", s2l "omitted", s2l "absent"]),
    (s2l "risk", [s2l "issue", s2l "concern", s2l "problem", s2l "audit", s2l "flag", s2l "exposure"]),
    (s2l "form", [s2l "return", s2l "schedule", s2l "worksheet", s2l "1120", s2l "1065", s2l "1040"]),
    (s2l "tax", [s2l "irs", s2l "filing", s2l "return", s2l "deduction", s2l "credit", s2l "liability"]),
    (s2l "income", [s2l "revenue", s2l "earnings", s2l "profit", s2l "gain", s2l "proceeds"]),
    (s2l "deduction", [s2l "expense", s2l "write-off", s2l "depreciation", s2l "amortization"]),
    (s2l "credit", [s2l "offset", s2l "incentive", s2l "rebate", s2l "reduction"]),
    (s2l "deadline", [s2l "due date", s2l "extension", s2l "filing date", s2l "submission"]),
    (s2l "review", [s2l "examine", s2l "analyze", s2l "verify", s2l "check", s2l "audit"]),
    (s2l "calculate", [s2l "compute", s2l "determine", s2l "figure", s2l "quantify"]),
    (s2l "client", [s2l "taxpayer", s2l "company", s2l "corporation", s2l "partnership", s2l "individual"]),
    (s2l "prior", [s2l "previous", s2l "last year", s2l "historical", s2l "past"]),
    (s2l "document", [s2l "record", s2l "file", s2l "statement", s2l "receipt", s2l "evidence"]) ]

/-- `rag_service._expand_query_with_tax_terms(query_terms)`: collect the
expansions of every query term that is a key of the table, then of every key
that is a proper substring of some query term, and de-duplicate
(`list(set(...))` — its order is unspecified in Python; every use of the
result is an order-independent sum or membership test). -/
def _expand_query_with_tax_terms (query_terms : List Str) : List Str :=
  ((query_terms.flatMap (fun term =>
      match tax_term_map.find? (fun kv => kv.1 == term) with
      | some kv => kv.2
      | none => [])) ++
    (tax_term_map.flatMap (fun kv =>
      query_terms.flatMap (fun qt =>
        if containsSub qt kv.1 && kv.1 ≠ qt then kv.2 else [])))).dedup

/-- The per-chunk score of `search_documents` (lines 174–188): each occurrence
(substring count of the lower-cased chunk) of a direct query term adds 2, each
occurrence of an expansion term adds 1; `expanded` is always
`_expand_query_with_tax_terms query_terms`, computed once per call. -/
def chunkScore (chunk : Str) (query_terms expanded : List Str) : Nat :=
  (query_terms.map (fun term => pyCount (pyLower chunk) term * 2)).sum +
    (expanded.map (fun term => pyCount (pyLower chunk) term)).sum

/-- The chunk used by the C8 counterexample: it contains the expansion term
`incomplete` of the query `missing`, none of the query terms — and all four
other expansion terms of `missing`. -/
def c8chunk : Str := s2l "incomplete needed required omitted absent"

/-- C8 counterexample: `c8chunk` contains the expansion term `incomplete` of
the query `missing` and none of the query terms, yet its score under the query
`missing` (5: five expansion terms at weight 1) is NOT strictly less than its
score with `incomplete` used directly as the query term (2: one direct
occurrence at weight 2, no expansions). -/
theorem c8_counterexample :
    (s2l "incomplete") ∈ _expand_query_with_tax_terms [s2l "missing"] ∧
    1 ≤ pyCount (pyLower c8chunk) (s2l "incomplete") ∧
    (∀ t ∈ [s2l "missing"], pyCount (pyLower c8chunk) t = 0) ∧
    ¬ (chunkScore c8chunk [s2l "missing"] (_expand_query_with_tax_terms [s2l "missing"])
        < chunkScore c8chunk [s2l "incomplete"]
            (_expand_query_with_tax_terms [s2l "incomplete"])) := by
  refine ⟨by decide, by decide, by decide, by decide⟩

/-- Sum of a function over a duplicate-free list in which every element other
than `e` contributes zero. -/
theorem sum_map_eq_single {l : List Str} {f : Str → Nat} {e : Str}
    (hnd : l.Nodup) (hmem : e ∈ l) (hz : ∀ t ∈ l, t ≠ e → f t = 0) :
    (l.map f).sum = f e := by
  induction l with
  | nil => simp at hmem
  | cons a rest ih =>
    rcases List.mem_cons.mp hmem with rfl | hmem'
    · simp only [List.map_cons, List.sum_cons]
      have hz' : (rest.map f).sum = 0 := by
        apply List.sum_eq_zero
        intro x hx
        obtain ⟨t, ht, rfl⟩ := List.mem_map.mp hx
        exact hz t (List.mem_cons_of_mem _ ht)
          (fun heq => (List.nodup_cons.mp hnd).1 (heq ▸ ht))
      omega
    · have ha : f a = 0 :=
        hz a (List.mem_cons_self _ _)
          (fun heq => (List.nodup_cons.mp hnd).1 (heq ▸ hmem'))
      simp only [List.map_cons, List.sum_cons, ha]
      rw [ih (List.nodup_cons.mp hnd).2 hmem'
        (fun t ht hne => hz t (List.mem_cons_of_mem _ ht) hne)]
      omega

/-- C8 (amended): direct query terms weigh 2 per occurrence and expansion
terms weigh 1; hence for every chunk that contains an expansion term `e` of
the query, none of the original query terms, AND no other expansion term of
the query, the score under the original query is strictly less than the score
with `e` used directly as the query term. -/
theorem c8_expansion_weight (chunk : Str) (qts : List Str) (e : Str)
    (hmem : e ∈ _expand_query_with_tax_terms qts)
    (hpos : 1 ≤ pyCount (pyLower chunk) e)
    (hq : ∀ t ∈ qts, pyCount (pyLower chunk) t = 0)
    (hother : ∀ t ∈ _expand_query_with_tax_terms qts, t ≠ e → pyCount (pyLower chunk) t = 0) :
    chunkScore chunk qts (_expand_query_with_tax_terms qts)
      < chunkScore chunk [e] (_expand_query_with_tax_terms [e]) := by
  unfold chunkScore
  have hdirect : (qts.map (fun term => pyCount (pyLower chunk) term * 2)).sum = 0 := by
    apply List.sum_eq_zero
    intro x hx
    obtain ⟨t, ht, rfl⟩ := List.mem_map.mp hx
    rw [hq t ht]
    omega
  have hnd : (_expand_query_with_tax_terms qts).Nodup := List.nodup_dedup _
  have hexp : ((_expand_query_with_tax_terms qts).map
      (fun term => pyCount (pyLower chunk) term)).sum = pyCount (pyLower chunk) e :=
    sum_map_eq_single hnd hmem hother
  rw [hdirect, hexp]
  have hrhs : pyCount (pyLower chunk) e * 2 ≤
      ([e].map (fun term => pyCount (pyLower chunk) term * 2)).sum +
        ((_expand_query_with_tax_terms [e]).map (fun term => pyCount (pyLower chunk) term)).sum := by
    simp
  omega

/-- Witness for C8 (amended) at a concrete input. -/
theorem c8_expansion_weight_witness :
    chunkScore (s2l "the report is incomplete") [s2l "missing"]
        (_expand_query_with_tax_terms [s2l "missing"])
      < chunkScore (s2l "the report is incomplete") [s2l "incomplete"]
          (_expand_query_with_tax_terms [s2l "incomplete"]) :=
  c8_expansion_weight (s2l "the report is incomplete") [s2l "missing"] (s2l "incomplete")
    (by decide) (by decide) (by decide) (by decide)

/-! ## Relevance scorer: `text_utils.calculate_relevance_score` -/

/-- Count of positions at which `term` occurs in `text` flanked by word
boundaries, i.e. `len(re.findall(r"\b<term>\b", text))` for the all-alphabetic
terms this code feeds it (boundary-flanked occurrences of such a term are
pairwise disjoint, so the position count equals the non-overlapping count of
`findall`). -/
def wordBoundaryCount (text term : Str) : Nat :=
  ((List.range (text.length + 1)).filter (fun i =>
    matchAt text term i &&
    (decide (i = 0) || !isWordChar (text.getD (i - 1) ' ')) &&
    (decide (text.length ≤ i + term.length) || !isWordChar (text.getD (i + term.length) ' ')))).length

/-- `text_utils.calculate_relevance_score(text, query)`.  Python's float
arithmetic (weights 2.0 and 0.5, division by 100) is modelled in `ℚ`; the
weights and the numerator are dyadic and exact, only the final quotient could
round in floats, and no claim concerns its exact value.  Python raises
`ZeroDivisionError` when the denominator `len(query_terms) * max(1, text_length / 100)`
is zero, which is modelled by the `Except.error` branch. -/
def calculate_relevance_score (text query : Str) : Except String ℚ :=
  if text = [] ∨ query = [] then .ok 0
  else
    if ((alphaTokens (pyLower query)).length : ℚ) *
        max 1 ((max 1 (pySplitWs (pyLower text)).length : ℚ) / 100) = 0 then
      .error "ZeroDivisionError"
    else
      .ok ((((alphaTokens (pyLower query)).map (fun term =>
          (wordBoundaryCount (pyLower text) term : ℚ) * 2 +
            ((pyCount (pyLower text) term : ℚ) - (wordBoundaryCount (pyLower text) term : ℚ))
              * (1 / 2))).sum) /
        (((alphaTokens (pyLower query)).length : ℚ) *
          max 1 ((max 1 (pySplitWs (pyLower text)).length : ℚ) / 100)))

/-- C10: for every non-empty text and non-empty query whose tokenisation
`\b[a-zA-Z]{2,}\b` yields no terms, `calculate_relevance_score` divides by
`len(query_terms) = 0` and raises `ZeroDivisionError` instead of returning a
score; and the zero-score guard covers exactly the empty text and the empty
query string. -/
theorem c10_zero_division (text query : Str)
    (htext : text ≠ []) (hquery : query ≠ [])
    (hterms : alphaTokens (pyLower query) = []) :
    calculate_relevance_score text query = .error "ZeroDivisionError" ∧
    calculate_relevance_score [] query = .ok 0 ∧
    calculate_relevance_score text [] = .ok 0 := by
  refine ⟨?_, by simp [calculate_relevance_score], by simp [calculate_relevance_score]⟩
  unfold calculate_relevance_score
  rw [if_neg (by simp [htext, hquery])]
  rw [if_pos (by simp [hterms])]

/-- Witness for C10 at the reference inputs: queries `"a"` and `"42"` are
non-empty but tokenise to no terms. -/
theorem c10_zero_division_witness :
    calculate_relevance_score (s2l "hello world") (s2l "a") = .error "ZeroDivisionError" ∧
    calculate_relevance_score (s2l "hello world") (s2l "42") = .error "ZeroDivisionError" :=
  ⟨(c10_zero_division (s2l "hello world") (s2l "a")
      (by decide) (by decide) (by decide)).1,
    (c10_zero_division (s2l "hello world") (s2l "42")
      (by decide) (by decide) (by decide)).1⟩

/-! ## Retrieval and snippet assembly: `rag_service.search_documents`,
`rag_service._get_document_snippets` -/

deriving instance DecidableEq for Except

/-- A document as seen by the RAG service.  `extract` is the observable
outcome of `await extract_document_text(doc_id)` for this document:
`Except.ok text` on normal return, `Except.error msg` when the call raises an
exception with message `msg`. -/
structure Doc where
  doc_id : Str
  file_name : Str
  file_type : Str
  extract : Except Str Str
deriving DecidableEq

/-- An entry of the result list of `search_documents` (the nested `document`
dict is flattened into the three identifying fields). -/
structure SearchResult where
  doc_id : Str
  file_name : Str
  file_type : Str
  text : Str
  score : Nat
  chunk_idx : Nat
deriving DecidableEq

/-- A snippet produced by `_get_document_snippets`. -/
structure Snippet where
  doc_id : Str
  file_name : Str
  file_type : Str
  text : Str
  relevance_score : Nat
deriving DecidableEq

/-- Modelled from the spec: `get_document_chunks` is imported by
`rag_service.py` from `app.utils.document_parser` but is defined nowhere in
the repository.  Spec §4.4 says the retriever must, per document, "extract
text, chunk it" with the §4.2 chunker, so the missing function is modelled as
chunking the document's extracted text with the chunker's default parameters
(`chunk_size=1000`, `overlap=100`). -/
def get_document_chunks (text : Str) : List Str :=
  split_into_chunks text 1000 100

/-- The scored chunks one document contributes in `search_documents`
(lines 174–200): chunks are enumerated, scored by `chunkScore`, and kept only
when the score is positive. -/
def scoreChunks (d : Doc) (chunks : List Str) (query_terms expanded : List Str) :
    List SearchResult :=
  chunks.enum.filterMap (fun p =>
    if 0 < chunkScore p.2 query_terms expanded then
      some { doc_id := d.doc_id, file_name := d.file_name, file_type := d.file_type,
             text := p.2, score := chunkScore p.2 query_terms expanded, chunk_idx := p.1 }
    else none)

/-- The per-document loop of `search_documents`.  The `try:` opened at
`rag_service.py` line 167 has NO `except` (nor `finally`) clause — the module
is a `SyntaxError` as written — so there is no handler and a document whose
extraction raises aborts the whole call; this is modelled by propagating the
error. -/
def searchLoop (query_terms expanded : List Str) : List Doc → Except Str (List SearchResult)
  | [] => .ok []
  | d :: rest =>
    match d.extract with
    | .error e => .error e
    | .ok text =>
      match searchLoop query_terms expanded rest with
      | .error e => .error e
      | .ok others => .ok (scoreChunks d (get_document_chunks text) query_terms expanded ++ others)

/-- `rag_service.search_documents(query, doc_ids, max_results)`: split the
lower-cased query on whitespace, expand it, score every chunk of every
document, sort descending by score (stable) and keep the first
`max_results`. -/
def search_documents (query : Str) (docs : List Doc) (max_results : Nat) :
    Except Str (List SearchResult) :=
  match searchLoop (pySplitWs (pyLower query))
      (_expand_query_with_tax_terms (pySplitWs (pyLower query))) docs with
  | .error e => .error e
  | .ok results => .ok ((sortDescBy SearchResult.score results).take max_results)

/-- Non-overlapping, case-insensitive occurrence positions of `kw` in `text`
(the `finditer` of `text_utils.extract_key_info`), scanning left to right;
fuel bounds the scan position. -/
def findPositionsCI (text kw : Str) : Nat → Nat → List Nat
  | 0, _ => []
  | fuel + 1, i =>
    if i < text.length then
      if leadsWithCI kw (text.drop i) then i :: findPositionsCI text kw fuel (i + kw.length)
      else findPositionsCI text kw fuel (i + 1)
    else []

/-- One context window of `extract_key_info`: `context_size` characters around
the match at `[mstart, mend)`, with ellipses marking truncation at either
side. -/
def keyInfoChunk (text : Str) (context_size mstart mend : Nat) : Str :=
  (if 0 < mstart - context_size then s2l "..." else []) ++
    pySlice text (mstart - context_size) (min text.length (mend + context_size)) ++
    (if min text.length (mend + context_size) < text.length then s2l "..." else [])

/-- `text_utils.extract_key_info(text, keywords, context_size)`: all context
windows around case-insensitive keyword occurrences, de-duplicated
(`list(set(...))`, unspecified order) and sorted by `text.find(chunk)`
(stable ascending; `find` is `-1` when the window with its added ellipses does
not occur verbatim). -/
def extract_key_info (text : Str) (keywords : List Str) (context_size : Nat) : List Str :=
  if text = [] ∨ keywords = [] then []
  else
    sortAscBy (fun c => pyFind text c)
      ((keywords.flatMap (fun kw =>
        (findPositionsCI text kw (text.length + 1) 0).map
          (fun pos => keyInfoChunk text context_size pos (pos + kw.length)))).dedup)

/-- The truncation marker appended by the fallback branch of
`_get_document_snippets`. -/
def truncationMarker : Str := s2l "... [truncated due to length]"

/-- The error placeholder text `[Error extracting content: <msg>]`. -/
def errText (e : Str) : Str := s2l "[Error extracting content: " ++ e ++ s2l "]"

/-- Python truthiness of the optional query (`if query:`): present and
non-empty. -/
def queryTruthy : Option Str → Bool
  | none => false
  | some q => q != []

/-- The query-guided narrowing of one document's text in the fallback loop
(lines 275–282): for a truthy query and a text longer than 1000 characters,
replace the text by its key-term context windows joined by an ellipsis
separator, when there are any.  `list(set(keywords + expanded_terms))` has
unspecified order in Python; `dedup` of the concatenation keeps the same set
of terms. -/
def narrowedText (query : Option Str) (text : Str) : Str :=
  if queryTruthy query && decide (1000 < text.length) then
    match query with
    | some q =>
      if extract_key_info text
          ((pySplitWs (pyLower q) ++
            _expand_query_with_tax_terms (pySplitWs (pyLower q))).dedup) 300 ≠ [] then
        pyJoin (s2l "\n...\n") (extract_key_info text
          ((pySplitWs (pyLower q) ++
            _expand_query_with_tax_terms (pySplitWs (pyLower q))).dedup) 300)
      else text
    | none => text
  else text

/-- The query-guided accumulation loop of `_get_document_snippets`
(lines 234–264): per search result, find the owning document (`next(...)`,
first match), skip the result when its estimated tokens would exceed the
budget, otherwise append it and stop once the accumulated estimate reaches the
budget.  Returns the accumulated snippets and token count. -/
def phase1Loop (docs : List Doc) (max_tokens : Nat) :
    List SearchResult → Nat → List Snippet → List Snippet × Nat
  | [], cur, acc => (acc, cur)
  | r :: rest, cur, acc =>
    match docs.find? (fun d => d.doc_id == r.doc_id) with
    | none => phase1Loop docs max_tokens rest cur acc
    | some doc =>
      if max_tokens < cur + r.text.length / 4 then
        phase1Loop docs max_tokens rest cur acc
      else
        if max_tokens ≤ cur + r.text.length / 4 then
          (acc ++ [⟨doc.doc_id, doc.file_name, doc.file_type, r.text, r.score⟩],
            cur + r.text.length / 4)
        else
          phase1Loop docs max_tokens rest (cur + r.text.length / 4)
            (acc ++ [⟨doc.doc_id, doc.file_name, doc.file_type, r.text, r.score⟩])

/-- The fallback accumulation loop of `_get_document_snippets`
(lines 268–322): per document in input order, an extraction exception yields an
error snippet scored 0 WITHOUT adding to the token count; otherwise the
(possibly narrowed) text is appended scored 1, truncated to the remaining token
allowance with the truncation marker when it would exceed the budget, and the
loop stops once the accumulated estimate reaches the budget. -/
def phase2Loop (query : Option Str) (max_tokens : Nat) :
    List Doc → Nat → List Snippet → List Snippet × Nat
  | [], cur, acc => (acc, cur)
  | d :: rest, cur, acc =>
    match d.extract with
    | .error e =>
      phase2Loop query max_tokens rest cur
        (acc ++ [⟨d.doc_id, d.file_name, d.file_type, errText e, 0⟩])
    | .ok text0 =>
      if max_tokens < cur + (narrowedText query text0).length / 4 then
        (acc ++ [⟨d.doc_id, d.file_name, d.file_type,
            (narrowedText query text0).take ((max_tokens - cur) * 4) ++ truncationMarker, 1⟩],
          max_tokens)
      else
        if max_tokens ≤ cur + (narrowedText query text0).length / 4 then
          (acc ++ [⟨d.doc_id, d.file_name, d.file_type, narrowedText query text0, 1⟩],
            cur + (narrowedText query text0).length / 4)
        else
          phase2Loop query max_tokens rest (cur + (narrowedText query text0).length / 4)
            (acc ++ [⟨d.doc_id, d.file_name, d.file_type, narrowedText query text0, 1⟩])

/-- `rag_service._get_document_snippets(documents, query, max_tokens)`: the
query-guided phase (for a truthy query) followed, when it produced nothing or
budget remains, by the fallback phase over the documents in input order.  A
raising `search_documents` call aborts the whole function (it is not inside
any `try`). -/
def _get_document_snippets (docs : List Doc) (query : Option Str) (max_tokens : Nat) :
    Except Str (List Snippet) :=
  if queryTruthy query then
    match search_documents (query.getD []) docs 10 with
    | .error e => .error e
    | .ok results =>
      if (phase1Loop docs max_tokens results 0 []).1 = [] ∨
          (phase1Loop docs max_tokens results 0 []).2 < max_tokens then
        .ok (phase2Loop query max_tokens docs
              (phase1Loop docs max_tokens results 0 []).2
              (phase1Loop docs max_tokens results 0 []).1).1
      else .ok (phase1Loop docs max_tokens results 0 []).1
  else
    .ok (phase2Loop query max_tokens docs 0 []).1

/-- Cumulative estimated token count of a snippet list
(estimate = `len(text) // 4`). -/
def totalEstimate (snips : List Snippet) : Nat :=
  (snips.map (fun s => s.text.length / 4)).sum

/-- One truncation unit: the bounded overshoot of the truncation rounding plus
the appended truncation marker, in estimated tokens. -/
def truncationUnit : Nat := truncationMarker.length / 4 + 1

/-- Cumulative estimated token count of the error-placeholder snippets (the
score-0 entries) of a snippet list. -/
def errorEstimate (snips : List Snippet) : Nat :=
  totalEstimate (snips.filter (fun s => s.relevance_score == 0))

/-- Estimates add over concatenation. -/
theorem totalEstimate_cat (a b : List Snippet) :
    totalEstimate (a ++ b) = totalEstimate a + totalEstimate b := by
  simp [totalEstimate]

/-- Appending one snippet adds its estimate. -/
theorem totalEstimate_append (l : List Snippet) (a b c t : Str) (sc : Nat) :
    totalEstimate (l ++ [⟨a, b, c, t, sc⟩]) = totalEstimate l + t.length / 4 := by
  simp [totalEstimate]

/-- The error estimate never decreases when a snippet is appended. -/
theorem errorEstimate_append_le (l : List Snippet) (s : Snippet) :
    errorEstimate l ≤ errorEstimate (l ++ [s]) := by
  rw [errorEstimate, errorEstimate, List.filter_append, totalEstimate_cat]
  exact Nat.le_add_right _ _

/-- Appending a score-0 snippet adds its estimate to the error estimate. -/
theorem errorEstimate_append_zero (l : List Snippet) (a b c t : Str) :
    errorEstimate (l ++ [⟨a, b, c, t, 0⟩]) = errorEstimate l + t.length / 4 := by
  rw [errorEstimate, errorEstimate, List.filter_append, totalEstimate_cat]
  simp [totalEstimate]

/-- Invariant of the query-guided phase: the accumulated estimate stays within
the accumulated token counter (plus the error allowance carried in), and the
counter never exceeds the budget. -/
theorem phase1_invariant (docs : List Doc) (max_tokens : Nat) :
    ∀ results cur acc, totalEstimate acc ≤ cur + errorEstimate acc → cur ≤ max_tokens →
      totalEstimate (phase1Loop docs max_tokens results cur acc).1
          ≤ (phase1Loop docs max_tokens results cur acc).2 +
            errorEstimate (phase1Loop docs max_tokens results cur acc).1 ∧
        (phase1Loop docs max_tokens results cur acc).2 ≤ max_tokens := by
  intro results
  induction results with
  | nil => intro cur acc h1 h2; exact ⟨h1, h2⟩
  | cons r rest ih =>
    intro cur acc h1 h2
    simp only [phase1Loop]
    cases hf : docs.find? (fun d => d.doc_id == r.doc_id) with
    | none =>
      simp only [hf]
      exact ih cur acc h1 h2
    | some doc =>
      simp only [hf]
      by_cases hskip : max_tokens < cur + r.text.length / 4
      · rw [if_pos hskip]
        exact ih cur acc h1 h2
      · rw [if_neg hskip]
        by_cases hbreak : max_tokens ≤ cur + r.text.length / 4
        · rw [if_pos hbreak]
          dsimp only
          refine ⟨?_, by omega⟩
          rw [totalEstimate_append]
          have hee := errorEstimate_append_le acc
            ⟨doc.doc_id, doc.file_name, doc.file_type, r.text, r.score⟩
          omega
        · rw [if_neg hbreak]
          apply ih
          · rw [totalEstimate_append]
            have hee := errorEstimate_append_le acc
              ⟨doc.doc_id, doc.file_name, doc.file_type, r.text, r.score⟩
            omega
          · omega

/-- Invariant of the fallback phase: on exit, the cumulative estimate exceeds
the budget by at most one truncation unit plus the (uncounted) error-snippet
estimates. -/
theorem phase2_invariant (query : Option Str) (max_tokens : Nat) :
    ∀ docs cur acc, totalEstimate acc ≤ cur + errorEstimate acc → cur ≤ max_tokens →
      totalEstimate (phase2Loop query max_tokens docs cur acc).1
        ≤ max_tokens + truncationUnit +
          errorEstimate (phase2Loop query max_tokens docs cur acc).1 := by
  intro docs
  induction docs with
  | nil =>
    intro cur acc h1 h2
    simp only [phase2Loop]
    omega
  | cons d rest ih =>
    intro cur acc h1 h2
    simp only [phase2Loop]
    cases hx : d.extract with
    | error e =>
      simp only [hx]
      apply ih
      · rw [totalEstimate_append, errorEstimate_append_zero]
        omega
      · exact h2
    | ok text0 =>
      simp only [hx]
      by_cases htr : max_tokens < cur + (narrowedText query text0).length / 4
      · rw [if_pos htr]
        dsimp only
        rw [totalEstimate_append]
        have hlen : ((narrowedText query text0).take ((max_tokens - cur) * 4)).length
            = (max_tokens - cur) * 4 := by
          rw [List.length_take]
          have hdiv : 4 * ((narrowedText query text0).length / 4)
              ≤ (narrowedText query text0).length := Nat.mul_div_le _ 4
          omega
        have happ : ((narrowedText query text0).take ((max_tokens - cur) * 4) ++
            truncationMarker).length = (max_tokens - cur) * 4 + 29 := by
          rw [List.length_append, hlen]
          rfl
        rw [happ]
        have hee := errorEstimate_append_le acc
          ⟨d.doc_id, d.file_name, d.file_type,
            (narrowedText query text0).take ((max_tokens - cur) * 4) ++ truncationMarker, 1⟩
        have htu : truncationUnit = 8 := by decide
        omega
      · rw [if_neg htr]
        by_cases hbr : max_tokens ≤ cur + (narrowedText query text0).length / 4
        · rw [if_pos hbr]
          dsimp only
          rw [totalEstimate_append]
          have hee := errorEstimate_append_le acc
            ⟨d.doc_id, d.file_name, d.file_type, narrowedText query text0, 1⟩
          omega
        · rw [if_neg hbr]
          apply ih
          · rw [totalEstimate_append]
            have hee := errorEstimate_append_le acc
              ⟨d.doc_id, d.file_name, d.file_type, narrowedText query text0, 1⟩
            omega
          · omega

/-- C1 (amended): the token accumulator counts query-accepted and
fallback-extracted snippets, so the cumulative estimate of the returned
snippets exceeds `max_tokens` by at most one truncation unit PLUS the total
estimate of the error-placeholder snippets, which are appended without being
counted against the budget. -/
theorem c1_token_budget (docs : List Doc) (query : Option Str) (max_tokens : Nat)
    (snips : List Snippet)
    (h : _get_document_snippets docs query max_tokens = .ok snips) :
    totalEstimate snips ≤ max_tokens + truncationUnit + errorEstimate snips := by
  unfold _get_document_snippets at h
  by_cases hq : queryTruthy query = true
  · rw [if_pos hq] at h
    cases hs : search_documents (query.getD []) docs 10 with
    | error e =>
      simp only [hs] at h
      exact Except.noConfusion h
    | ok results =>
      simp only [hs] at h
      have hp := phase1_invariant docs max_tokens results 0 []
        (by simp [totalEstimate, errorEstimate]) (Nat.zero_le _)
      by_cases hc : ((phase1Loop docs max_tokens results 0 []).1 = [] ∨
          (phase1Loop docs max_tokens results 0 []).2 < max_tokens)
      · rw [if_pos hc] at h
        injection h with h
        rw [← h]
        exact phase2_invariant query max_tokens docs
          (phase1Loop docs max_tokens results 0 []).2
          (phase1Loop docs max_tokens results 0 []).1 hp.1 hp.2
      · rw [if_neg hc] at h
        injection h with h
        rw [← h]
        have h1 := hp.1
        have h2 := hp.2
        omega
  · rw [if_neg hq] at h
    injection h with h
    rw [← h]
    exact phase2_invariant query max_tokens docs 0 []
      (by simp [totalEstimate, errorEstimate]) (Nat.zero_le _)

/-- Three documents whose extraction raises; their error placeholders are
appended without any token accounting. -/
def c1docs : List Doc :=
  [⟨s2l "e1", s2l "x1.bin", s2l "bin", .error (s2l "parser exploded while reading the stream")⟩,
   ⟨s2l "e2", s2l "x2.bin", s2l "bin", .error (s2l "parser exploded while reading the stream")⟩,
   ⟨s2l "e3", s2l "x3.bin", s2l "bin", .error (s2l "parser exploded while reading the stream")⟩]

/-- C1 counterexample: with budget `max_tokens = 0`, the assembler returns
snippets with a cumulative estimated token count of 51, far more than one
truncation unit (8) over the budget — the error placeholders are never counted
against `current_tokens`. -/
theorem c1_counterexample :
    (_get_document_snippets c1docs none 0).map totalEstimate = .ok 51 ∧
      ¬ (51 ≤ 0 + truncationUnit) := by
  constructor <;> decide

/-- Witness for C1 (amended) at a concrete input. -/
theorem c1_token_budget_witness :
    totalEstimate [⟨s2l "d1", s2l "a.txt", s2l "txt", s2l "hello", 1⟩]
      ≤ 100 + truncationUnit +
        errorEstimate [⟨s2l "d1", s2l "a.txt", s2l "txt", s2l "hello", 1⟩] :=
  c1_token_budget [⟨s2l "d1", s2l "a.txt", s2l "txt", .ok (s2l "hello")⟩] none 100
    [⟨s2l "d1", s2l "a.txt", s2l "txt", s2l "hello", 1⟩] (by decide)

/-- The two documents of the C2 evaluation: one whose single chunk scores 2
against the query `alpha`, one whose extraction raises `boom`. -/
def c2good : Doc := ⟨s2l "doc-1", s2l "good.txt", s2l "txt", .ok (s2l "alpha beta")⟩

/-- The failing document of the C2 evaluation. -/
def c2bad : Doc := ⟨s2l "doc-2", s2l "bad.txt", s2l "txt", .error (s2l "boom")⟩

/-- C2 evaluation at the failing input: because the `try:` opened at
`rag_service.py` line 167 has no `except` clause (the module is a
`SyntaxError`; moreover `get_document_chunks`, imported at line 14, exists
nowhere in the repository), one failing document aborts the whole retrieval —
`search_documents` propagates the exception instead of returning the other
document's scored chunks, which it does return when the failing document is
absent. -/
theorem c2_failing_doc_aborts_retrieval :
    search_documents (s2l "alpha") [c2good, c2bad] 5 = .error (s2l "boom") ∧
    (search_documents (s2l "alpha") [c2good] 5).map (List.map SearchResult.score)
      = .ok [2] := by
  constructor <;> decide

/-- The snippet the fallback mode produces for one document: the error
placeholder scored 0 when extraction raises, the (possibly narrowed) text
scored 1 otherwise. -/
def fallbackSnippet (query : Option Str) (d : Doc) : Snippet :=
  match d.extract with
  | .error e => ⟨d.doc_id, d.file_name, d.file_type, errText e, 0⟩
  | .ok text0 => ⟨d.doc_id, d.file_name, d.file_type, narrowedText query text0, 1⟩

/-- The tokens one document adds to the fallback accumulator (error snippets
add none). -/
def docEstimate (query : Option Str) (d : Doc) : Nat :=
  match d.extract with
  | .error _ => 0
  | .ok text0 => (narrowedText query text0).length / 4

/-- When the whole document list fits strictly under the budget, the fallback
loop processes every document, emitting exactly one snippet per document in
input order. -/
theorem phase2Loop_all (query : Option Str) (max_tokens : Nat) :
    ∀ docs cur acc, cur + (docs.map (docEstimate query)).sum < max_tokens →
      phase2Loop query max_tokens docs cur acc =
        (acc ++ docs.map (fallbackSnippet query),
          cur + (docs.map (docEstimate query)).sum) := by
  intro docs
  induction docs with
  | nil => intro cur acc _; simp [phase2Loop]
  | cons d rest ih =>
    intro cur acc h
    simp only [phase2Loop]
    cases hx : d.extract with
    | error e =>
      have hd : docEstimate query d = 0 := by simp [docEstimate, hx]
      have hf : fallbackSnippet query d = ⟨d.doc_id, d.file_name, d.file_type, errText e, 0⟩ := by
        simp [fallbackSnippet, hx]
      simp only [hx]
      rw [ih cur (acc ++ [(⟨d.doc_id, d.file_name, d.file_type, errText e, 0⟩ : Snippet)])
        (by simp only [List.map_cons, List.sum_cons, hd] at h; omega)]
      simp [hf, hd]
    | ok text0 =>
      have hd : docEstimate query d = (narrowedText query text0).length / 4 := by
        simp [docEstimate, hx]
      have hf : fallbackSnippet query d
          = ⟨d.doc_id, d.file_name, d.file_type, narrowedText query text0, 1⟩ := by
        simp [fallbackSnippet, hx]
      have hsum : cur + docEstimate query d + (rest.map (docEstimate query)).sum
          < max_tokens := by
        simp only [List.map_cons, List.sum_cons] at h; omega
      simp only [hx]
      rw [if_neg (by omega), if_neg (by omega)]
      rw [ih (cur + (narrowedText query text0).length / 4)
        (acc ++ [(⟨d.doc_id, d.file_name, d.file_type, narrowedText query text0, 1⟩ : Snippet)])
        (by omega)]
      simp only [hf, hd, List.map_cons, List.sum_cons, Prod.mk.injEq]
      constructor
      · simp
      · omega

/-- C3 (amended): in the unguided mode (`query = None`), as long as the total
estimated tokens of all documents stay strictly under the budget, the
assembler returns exactly one snippet per input document in order — a failing
document contributing its error placeholder scored 0 — but once the budget is
reached the loop stops and later documents contribute no entry (see the
counterexample). -/
theorem c3_fallback_entries (docs : List Doc) (max_tokens : Nat)
    (hbudget : (docs.map (docEstimate none)).sum < max_tokens) :
    _get_document_snippets docs none max_tokens = .ok (docs.map (fallbackSnippet none)) ∧
    ∀ d ∈ docs, ∀ e, d.extract = Except.error e →
      (fallbackSnippet none d).text = errText e ∧
        (fallbackSnippet none d).relevance_score = 0 := by
  constructor
  · unfold _get_document_snippets
    rw [if_neg (by decide)]
    rw [phase2Loop_all none max_tokens docs 0 [] (by omega)]
    simp
  · intro d _ e hx
    simp [fallbackSnippet, hx]

/-- First document of the C3 counterexample: 12 characters, 3 estimated
tokens. -/
def c3doc1 : Doc := ⟨s2l "d1", s2l "a.txt", s2l "txt", .ok (s2l "aaaaaaaaaaaa")⟩

/-- Second document of the C3 counterexample. -/
def c3doc2 : Doc := ⟨s2l "d2", s2l "b.txt", s2l "txt", .ok (s2l "bbbb")⟩

/-- A failing document used by the C3 witness. -/
def c3bad : Doc := ⟨s2l "d3", s2l "c.bin", s2l "bin", .error (s2l "bad zip")⟩

/-- C3 counterexample: two documents, budget 2 — the first document is
truncated, the accumulator reaches the budget and the loop breaks, so the
assembler returns ONE snippet for TWO input documents; a document is left
without an entry, refuting the claim as stated. -/
theorem c3_counterexample :
    (_get_document_snippets [c3doc1, c3doc2] none 2).map List.length = .ok 1 ∧
      [c3doc1, c3doc2].length = 2 := by
  constructor <;> decide

/-- Witness for C3 (amended) at a concrete input including a failing
document. -/
theorem c3_fallback_entries_witness :
    _get_document_snippets [c3doc1, c3bad] none 100
      = .ok ([c3doc1, c3bad].map (fallbackSnippet none)) :=
  (c3_fallback_entries [c3doc1, c3bad] 100 (by decide)).1

/-! ## Prompt composer: `rag_service.build_prompt_with_context` (user-prompt
part, lines 481–517) -/

/-- The tax-form template record resolved by `_get_tax_form_template`; the
user prompt uses `form_code` and `content`. -/
structure TaxFormTemplate where
  form_code : Str
  template_name : Str
  doc_id : Str
  content : Str
deriving DecidableEq

/-- The marker appended to an over-long snippet text. -/
def contentTruncatedMarker : Str := s2l "... [content truncated]"

/-- The marker appended to an over-long template content. -/
def templateTruncatedMarker : Str := s2l "... [template truncated]"

/-- Snippet text as rendered into the prompt: truncated to 1000 characters
with the marker when longer. -/
def renderSnippetText (t : Str) : Str :=
  if 1000 < t.length then t.take 1000 ++ contentTruncatedMarker else t

/-- Template content as rendered into the prompt: truncated to 500 characters
with the marker when longer. -/
def renderTemplateText (t : Str) : Str :=
  if 500 < t.length then t.take 500 ++ templateTruncatedMarker else t

/-- The block one snippet contributes to the user prompt: the source document
name header, then the (possibly truncated) text. -/
def snippetBlock (s : Snippet) : Str :=
  s2l "[Document: " ++ s.file_name ++ s2l "]\n" ++ renderSnippetText s.text ++ s2l "\n\n"

/-- The fixed opening of the user prompt. -/
def promptHeader (user_message : Str) : Str :=
  s2l "User Question: " ++ user_message ++ s2l "\n\n"

/-- The fixed closing line of the user prompt. -/
def promptTail : Str :=
  s2l "Please provide a helpful response based on the available information."

/-- The snippet part of the user prompt (lines 484–503): only when there are
snippets, a section header followed by the top 5 snippets in stable descending
relevance order. -/
def snippetAppend (document_snippets : List Snippet) (acc : Str) : Str :=
  if document_snippets = [] then acc
  else
    ((sortDescBy Snippet.relevance_score document_snippets).take 5).foldl
      (fun a s => a ++ snippetBlock s)
      (acc ++ s2l "Relevant Document Information:\n\n")

/-- The template part of the user prompt (lines 506–514). -/
def templateAppend (tmpl : Option TaxFormTemplate) (acc : Str) : Str :=
  match tmpl with
  | none => acc
  | some tf =>
    acc ++ s2l "Tax Form Template (" ++ tf.form_code ++ s2l "):\n" ++
      renderTemplateText tf.content ++ s2l "\n\n"

/-- The user prompt composed by `build_prompt_with_context` from the question,
the assembled snippets and the optional tax-form template, mirroring the
sequential `user_prompt += ...` accumulation of the Python code. -/
def buildUserPrompt (user_message : Str) (document_snippets : List Snippet)
    (tax_form_template : Option TaxFormTemplate) : Str :=
  templateAppend tax_form_template (snippetAppend document_snippets (promptHeader user_message))
    ++ promptTail

/-- The snippet section as a standalone value: section header plus the joined
blocks of the top 5 snippets. -/
def snippetSection (document_snippets : List Snippet) : Str :=
  if document_snippets = [] then []
  else
    s2l "Relevant Document Information:\n\n" ++
      (((sortDescBy Snippet.relevance_score document_snippets).take 5).map snippetBlock).flatten

/-- The template section as a standalone value. -/
def templateSection : Option TaxFormTemplate → Str
  | none => []
  | some tf =>
    s2l "Tax Form Template (" ++ tf.form_code ++ s2l "):\n" ++
      renderTemplateText tf.content ++ s2l "\n\n"

/-- Folding `+= block` over a list appends the joined blocks. -/
theorem foldl_append_blocks (f : Snippet → Str) :
    ∀ (l : List Snippet) (acc : Str),
      l.foldl (fun a s => a ++ f s) acc = acc ++ (l.map f).flatten := by
  intro l
  induction l with
  | nil => intro acc; simp
  | cons s rest ih => intro acc; simp [ih, List.append_assoc]

/-- `orderedInsert` with the descending-by-score relation preserves the
pairwise descending order. -/
theorem orderedInsert_desc_pairwise {α : Type} (score : α → Nat) (x : α) :
    ∀ l : List α, l.Pairwise (fun a b => score b ≤ score a) →
      (List.orderedInsert (fun a b => score b ≤ score a) x l).Pairwise
        (fun a b => score b ≤ score a) := by
  intro l
  induction l with
  | nil => intro _; simp
  | cons b t ih =>
    intro hp
    simp only [List.orderedInsert]
    by_cases hr : score b ≤ score x
    · rw [if_pos hr]
      refine List.Pairwise.cons ?_ hp
      intro y hy
      rcases List.mem_cons.mp hy with rfl | hy
      · exact hr
      · exact Nat.le_trans ((List.pairwise_cons.mp hp).1 y hy) hr
    · rw [if_neg hr]
      refine List.Pairwise.cons ?_ (ih (List.pairwise_cons.mp hp).2)
      intro y hy
      rcases (List.mem_orderedInsert _).mp hy with rfl | hy
      · omega
      · exact (List.pairwise_cons.mp hp).1 y hy

/-- The stable descending sort is pairwise descending. -/
theorem sortDescBy_pairwise {α : Type} (score : α → Nat) :
    ∀ l : List α, (sortDescBy score l).Pairwise (fun a b => score b ≤ score a) := by
  intro l
  induction l with
  | nil => simp [sortDescBy, List.insertionSort]
  | cons a rest ih =>
    simp only [sortDescBy, List.insertionSort] at ih ⊢
    exact orderedInsert_desc_pairwise score a _ ih

/-- Inserting `x` keeps every score class in order: `x` lands after every
element with a strictly greater score and before every element with a smaller
or equal score, so filtering any score value `v` sees `x` first iff
`score x = v`. -/
theorem orderedInsert_desc_filter {α : Type} (score : α → Nat) (x : α) (v : Nat) :
    ∀ l : List α,
      (List.orderedInsert (fun a b => score b ≤ score a) x l).filter
          (fun s => score s == v)
        = if score x = v then x :: l.filter (fun s => score s == v)
          else l.filter (fun s => score s == v) := by
  intro l
  induction l with
  | nil =>
    simp only [List.orderedInsert, List.filter_cons, List.filter_nil]
    by_cases hv : score x = v
    · simp [hv]
    · simp [hv]
  | cons b t ih =>
    simp only [List.orderedInsert]
    by_cases hr : score b ≤ score x
    · rw [if_pos hr]
      by_cases hv : score x = v
      · simp [List.filter_cons, hv]
      · simp [List.filter_cons, hv]
    · rw [if_neg hr]
      by_cases hv : score x = v
      · have hb : ¬ (score b = v) := by omega
        simp [List.filter_cons, ih, hv, hb]
      · simp [List.filter_cons, ih, hv]

/-- Stability of the descending sort: within each relevance-score class the
sorted list keeps the encounter order (the filtered subsequences agree). -/
theorem sortDescBy_filter {α : Type} (score : α → Nat) (v : Nat) :
    ∀ l : List α,
      (sortDescBy score l).filter (fun s => score s == v)
        = l.filter (fun s => score s == v) := by
  intro l
  induction l with
  | nil => simp [sortDescBy, List.insertionSort]
  | cons a rest ih =>
    simp only [sortDescBy, List.insertionSort] at ih ⊢
    rw [orderedInsert_desc_filter]
    by_cases hv : score a = v
    · rw [if_pos hv, ih, List.filter_cons, if_pos (by simp [hv])]
    · rw [if_neg hv, ih, List.filter_cons, if_neg (by simp [hv])]

/-- C9 (amended): the composed user prompt starts with the fixed header
`User Question: ` followed by the VERBATIM question (not with the bare
question, see the counterexample), then the snippet section — at most 5
snippets in descending relevance order with ties keeping encounter order, each
prefixed by its source document's file name and truncated to 1000 characters
plus a content-truncated marker when longer — then, when a tax-form template
was resolved, at most 500 characters of its content plus a template-truncated
marker when longer, then the fixed closing line. -/
theorem c9_user_prompt (q : Str) (snips : List Snippet) (tmpl : Option TaxFormTemplate) :
    buildUserPrompt q snips tmpl
        = promptHeader q ++ snippetSection snips ++ templateSection tmpl ++ promptTail ∧
    ((sortDescBy Snippet.relevance_score snips).take 5).length ≤ 5 ∧
    ((sortDescBy Snippet.relevance_score snips).take 5).Pairwise
        (fun a b => b.relevance_score ≤ a.relevance_score) ∧
    (∀ v, (sortDescBy Snippet.relevance_score snips).filter
          (fun s => s.relevance_score == v)
        = snips.filter (fun s => s.relevance_score == v)) ∧
    (∀ s ∈ (sortDescBy Snippet.relevance_score snips).take 5,
        (renderSnippetText s.text).length ≤ 1000 + contentTruncatedMarker.length) ∧
    (∀ tf, tmpl = some tf →
        (renderTemplateText tf.content).length ≤ 500 + templateTruncatedMarker.length) := by
  refine ⟨?_, List.length_take_le _ _, ?_, ?_, ?_, ?_⟩
  · by_cases hs : snips = []
    · cases tmpl with
      | none =>
        simp [buildUserPrompt, snippetAppend, templateAppend, snippetSection,
          templateSection, hs]
      | some tf =>
        simp [buildUserPrompt, snippetAppend, templateAppend, snippetSection,
          templateSection, hs, List.append_assoc]
    · cases tmpl with
      | none =>
        simp [buildUserPrompt, snippetAppend, templateAppend, snippetSection,
          templateSection, hs, foldl_append_blocks, List.append_assoc]
      | some tf =>
        simp [buildUserPrompt, snippetAppend, templateAppend, snippetSection,
          templateSection, hs, foldl_append_blocks, List.append_assoc]
  · exact List.Pairwise.sublist (List.take_sublist 5 _)
      (sortDescBy_pairwise Snippet.relevance_score snips)
  · intro v
    exact sortDescBy_filter Snippet.relevance_score v snips
  · intro s _
    unfold renderSnippetText
    split
    · rw [List.length_append, List.length_take]
      omega
    · omega
  · intro tf _
    unfold renderTemplateText
    split
    · rw [List.length_append, List.length_take]
      omega
    · omega

/-- C9 counterexample: the user prompt does NOT start with the verbatim
question — its first characters are the fixed `User Question: ` header (here
the prompt for question `Q` starts with `U`, not `Q`). -/
theorem c9_counterexample :
    (buildUserPrompt (s2l "Q") [] none).take (s2l "Q").length ≠ s2l "Q" := by decide

/-- Witness for C9 (amended) at a concrete input. -/
theorem c9_user_prompt_witness :
    buildUserPrompt (s2l "Q") [] none
      = promptHeader (s2l "Q") ++ snippetSection [] ++ templateSection none ++ promptTail :=
  (c9_user_prompt (s2l "Q") [] none).1
